import Mathlib

/-!
Verification of the fantasy-soccer scraping scripts
(`src/scripts/scrape-transfermarkt.ts` and the full-profile variant in
`src/scripts/test-single-player.ts`).

The TypeScript sources are shallowly embedded over `List Char`:
JavaScript strings become character lists, the specific regular
expressions used by the scripts become hand-written matchers with the
exact first-match / greedy / lazy semantics of the source patterns,
`fetch` and the page fetcher become explicit oracles, and the file
system is tracked as a list of written paths.  Every definition is
translated from the source scripts; functions named after a source
symbol embed that symbol.
-/

namespace FantasySoccer

/-- Character lists standing for JavaScript strings. -/
abbrev Str := List Char

/-- Whitespace as matched by the JavaScript `\s` class and by
`String.prototype.trim` (the code points relevant to this code base). -/
def isWsJS (c : Char) : Bool :=
  c = ' ' || c = '\t' || c = '\n' || c = '\r' ||
  c = '\x0b' || c = '\x0c' || c = ' ' ||
  c = ' ' || c = ' ' || c = '﻿'

/-- Boolean test that `p` is a leading segment of `l`. -/
def isPre : Str → Str → Bool
  | [], _ => true
  | _ :: _, [] => false
  | a :: as, b :: bs => a == b && isPre as bs

/-- Boolean substring test (used to state "body text containing ..."). -/
def containsSub (pat : Str) : Str → Bool
  | [] => isPre pat []
  | c :: cs => isPre pat (c :: cs) || containsSub pat cs

/-- One global, left-to-right, non-overlapping replacement pass, the
semantics of JavaScript `str.replace(/lit/g, rep)` for a literal
pattern.  The fuel argument is the length of the scanned list; it only
serves to make the recursion structural. -/
def replaceAllF (pat rep : Str) : Nat → Str → Str
  | 0, l => l
  | _ + 1, [] => []
  | fuel + 1, c :: cs =>
    if isPre pat (c :: cs) then rep ++ replaceAllF pat rep fuel ((c :: cs).drop pat.length)
    else c :: replaceAllF pat rep fuel cs

/-- JavaScript `str.replace(/lit/g, rep)` for a nonempty literal `lit`. -/
def replaceAll (pat rep l : Str) : Str :=
  replaceAllF pat rep l.length l

/-- JavaScript `str.replace('lit', rep)`: only the first occurrence is
replaced. -/
def replaceOnce (pat rep : Str) : Str → Str
  | [] => []
  | c :: cs =>
    if isPre pat (c :: cs) then rep ++ (c :: cs).drop pat.length
    else c :: replaceOnce pat rep cs

/-- Runs of `\s` collapse to a single space: `str.replace(/\s+/g, ' ')`.
The flag remembers whether the previous character was whitespace. -/
def collapseWsA : Bool → Str → Str
  | _, [] => []
  | prevWs, c :: cs =>
    if isWsJS c then
      if prevWs then collapseWsA true cs else ' ' :: collapseWsA true cs
    else c :: collapseWsA false cs

/-- `str.replace(/\s+/g, ' ')`. -/
def collapseWs (l : Str) : Str := collapseWsA false l

/-- JavaScript `str.trim()`. -/
def trimWs (l : Str) : Str :=
  ((l.dropWhile isWsJS).reverse.dropWhile isWsJS).reverse

/-- The six entity-decoding passes of `cleanText`, applied in source
order: `&nbsp; &amp; &lt; &gt; &quot; &#39;`. -/
def decodeEntities (l : Str) : Str :=
  replaceAll "&#39;".data "'".data
    (replaceAll "&quot;".data "\"".data
      (replaceAll "&gt;".data ">".data
        (replaceAll "&lt;".data "<".data
          (replaceAll "&amp;".data "&".data
            (replaceAll "&nbsp;".data " ".data l)))))

/-- `cleanText` from both scripts: entity decoding, whitespace
collapse, trim; `null`/`undefined` (and hence the falsy empty string)
yield the empty string. -/
def cleanText (t : Option Str) : Str :=
  match t with
  | none => []
  | some l => trimWs (collapseWs (decodeEntities l))

/-! ## Identifier and slug resolution -/

/-- First-match scan of a position matcher over every suffix of the
input, the search behaviour of an unanchored JavaScript regex. -/
def scanFirst (p : Str → Option α) : Str → Option α
  | [] => p []
  | c :: cs =>
    match p (c :: cs) with
    | some r => some r
    | none => scanFirst p cs

/-- The literal part of the id regex `/${type}/(\d+)`: a slash, the
entity-kind word, a slash. -/
def idMarker (kind : Str) : Str := '/' :: (kind ++ ['/'])

/-- Attempt of the regex `/${type}/(\d+)` at one position: the marker
must be present and at least one digit must follow; the capture is the
maximal digit run. -/
def idAt (kind : Str) (l : Str) : Option Str :=
  if isPre (idMarker kind) l ∧ (l.drop (idMarker kind).length).takeWhile Char.isDigit ≠ [] then
    some ((l.drop (idMarker kind).length).takeWhile Char.isDigit)
  else none

/-- `extractId` from both scripts: first match of `/${type}/(\d+)` in
the URL, else the sentinel `"unknown"`. -/
def extractId (url kind : Str) : Str :=
  match scanFirst (idAt kind) url with
  | some ds => ds
  | none => "unknown".data

/-- JavaScript `url.split('/')`. -/
def splitOnSlash : Str → List Str
  | [] => [[]]
  | c :: cs =>
    if c = '/' then [] :: splitOnSlash cs
    else
      match splitOnSlash cs with
      | [] => [[c]]
      | p :: ps => (c :: p) :: ps

/-- `extractSlug` from both scripts: `url.split('/')[1] || 'unknown'`
(the empty segment is falsy). -/
def extractSlug (url : Str) : Str :=
  match (splitOnSlash url).get? 1 with
  | some s => if s.isEmpty then "unknown".data else s
  | none => "unknown".data

/-! ## Entity discovery -/

/-- Head-is-a-digit test, the `\d` requirement of `\d+` at a position. -/
def headIsDigit (l : Str) : Bool :=
  match l with
  | c :: _ => c.isDigit
  | [] => false

/-- Test of the anchored regex `^\/[^/]+\/<mid>\d+`: a leading slash, a
nonempty run of non-slash characters (the slug), the literal middle
part, and at least one digit.  Because `[^/]+` cannot cross a slash and
is followed by `\/` in the pattern, it deterministically matches up to
the first slash. -/
def matchesEntityHref (mid : Str) (l : Str) : Bool :=
  match l with
  | [] => false
  | c :: rest =>
    c == '/' && !(rest.takeWhile (fun d => d != '/')).isEmpty &&
      isPre mid (rest.dropWhile (fun d => d != '/')) &&
      headIsDigit ((rest.dropWhile (fun d => d != '/')).drop mid.length)

/-- Middle literal of the team link regex
`^\/[^/]+\/startseite\/verein\/\d+`. -/
def teamHrefMid : Str := "/startseite/verein/".data

/-- Middle literal of the player link regex
`^\/[^/]+\/profil\/spieler\/\d+`. -/
def playerHrefMid : Str := "/profil/spieler/".data

/-- Test of `^\/[^/]+\/startseite\/verein\/\d+`. -/
def matchesTeamHref (l : Str) : Bool := matchesEntityHref teamHrefMid l

/-- Test of `^\/[^/]+\/profil\/spieler\/\d+`. -/
def matchesPlayerHref (l : Str) : Bool := matchesEntityHref playerHrefMid l

/-- An anchor element as consumed by the extractors: its `href`
attribute (`getAttribute` may return null) and its text content. -/
structure AnchorEl where
  href : Option Str
  text : Option Str
deriving DecidableEq

/-- The `Team` record of `scrape-transfermarkt.ts`. -/
structure TeamR where
  name : Str
  url : Str
  slug : Str
  id : Str
deriving DecidableEq

/-- The `Player` record of `scrape-transfermarkt.ts`. -/
structure PlayerR where
  id : Str
  name : Str
  url : Str
  imageUrl : Option Str
  localImagePath : Option Str
  position : Option Str
  number : Option Str
  team : Str
  teamSlug : Str
deriving DecidableEq

/-- `BASE_URL` of both scripts. -/
def baseUrl : Str := "https://www.transfermarkt.com".data

/-- JavaScript `str.split(sub)[0]`: the part before the first
occurrence of `sub`, or the whole string when absent. -/
def takeBeforeSub (pat : Str) : Str → Str
  | [] => []
  | c :: cs =>
    if isPre pat (c :: cs) then []
    else c :: takeBeforeSub pat cs

/-- `constructImageUrl` of `scrape-transfermarkt.ts`. -/
def constructImageUrl (playerId : Str) : Str :=
  "https://img.a.transfermarkt.technology/portrait/header/".data ++ playerId ++ ".jpg".data

/-- The acceptance test and record construction applied to one anchor
inside `scrapeTeams`'s extract callback: href and cleaned name must be
truthy, the href must match the team regex, the name must have length
at least 3 and not be purely numeric. -/
def teamCandidate (a : AnchorEl) : Option TeamR :=
  match a.href with
  | none => none
  | some h =>
    let name := cleanText a.text
    if h ≠ [] ∧ name ≠ [] ∧ matchesTeamHref h = true then
      if name.length < 3 then none
      else if name ≠ [] ∧ name.all Char.isDigit then none
      else
        some ⟨name, baseUrl ++ takeBeforeSub "/saison_id".data h,
          extractSlug h, extractId h "verein".data⟩
    else none

/-- The anchor loop of `scrapeTeams`'s extract callback, with its
`seenIds` set of already pushed team ids. -/
def teamsScan : List AnchorEl → List Str → List TeamR
  | [], _ => []
  | a :: as, seen =>
    match teamCandidate a with
    | none => teamsScan as seen
    | some t =>
      if t.id ∈ seen then teamsScan as seen
      else t :: teamsScan as (t.id :: seen)

/-- `scrapeTeams` applied to the anchors of the fetched listing page:
the deduplicated team list truncated to the first 20
(`result.data.slice(0, 20)`). -/
def scrapeTeams (anchors : List AnchorEl) : List TeamR :=
  (teamsScan anchors []).take 20

/-- The acceptance test and record construction applied to one anchor
inside `scrapeTeamPlayers`'s extract callback (name length at least 2
for players). -/
def playerCandidate (team : TeamR) (a : AnchorEl) : Option PlayerR :=
  match a.href with
  | none => none
  | some h =>
    let name := cleanText a.text
    if h ≠ [] ∧ name ≠ [] ∧ matchesPlayerHref h = true then
      if name.length < 2 then none
      else if name ≠ [] ∧ name.all Char.isDigit then none
      else
        let playerId := extractId h "spieler".data
        some ⟨playerId, name, baseUrl ++ h, some (constructImageUrl playerId),
          none, none, none, team.name, team.slug⟩
    else none

/-- The anchor loop of `scrapeTeamPlayers`'s extract callback. -/
def playersScan (team : TeamR) : List AnchorEl → List Str → List PlayerR
  | [], _ => []
  | a :: as, seen =>
    match playerCandidate team a with
    | none => playersScan team as seen
    | some p =>
      if p.id ∈ seen then playersScan team as seen
      else p :: playersScan team as (p.id :: seen)

/-- `scrapeTeamPlayers` applied to the anchors of the fetched squad
page (no truncation for players). -/
def scrapeTeamPlayers (team : TeamR) (anchors : List AnchorEl) : List PlayerR :=
  playersScan team anchors []

/-! ## Specification-side descriptions of deduplication -/

/-- First-seen-wins deduplication of a list by a key, relative to a set
of already seen keys. -/
def dedupByKey (key : α → Str) : List α → List Str → List α
  | [], _ => []
  | x :: xs, seen =>
    if key x ∈ seen then dedupByKey key xs seen
    else x :: dedupByKey key xs (key x :: seen)

/-- First-seen-wins deduplication of a key list. -/
def fsDedup : List Str → List Str → List Str
  | [], _ => []
  | k :: ks, seen =>
    if k ∈ seen then fsDedup ks seen
    else k :: fsDedup ks (k :: seen)

/-! ## Field extraction: primitive matchers

Each regular expression of `scrapePlayerProfile` is embedded as a
position matcher (`Str → Option _`) run through `scanFirst`, which is
the first-match semantics of JavaScript `String.prototype.match` for a
regex without the `g` flag.  Greedy pieces whose follower cannot
overlap them (`\s*` before a digit or letter, `\d+` before a
non-digit) need no backtracking and are embedded as `takeWhile`/
`dropWhile`; a lazy class group `[...]+?` is embedded as shortest-first
expansion, and `\s*` followed by an overlapping lazy group is embedded
with explicit longest-first backtracking. -/

/-- Match a literal at the current position. -/
def lit (w : Str) (l : Str) : Option Str :=
  if isPre w l then some (l.drop w.length) else none

/-- Case-insensitive character comparison (`i` flag, ASCII folding). -/
def eqCI (a b : Char) : Bool := a.toLower == b.toLower

/-- Case-insensitive leading-segment test. -/
def isPreCI : Str → Str → Bool
  | [], _ => true
  | _ :: _, [] => false
  | a :: as, b :: bs => eqCI a b && isPreCI as bs

/-- Match a literal at the current position under the `i` flag. -/
def litCI (w : Str) (l : Str) : Option Str :=
  if isPreCI w l then some (l.drop w.length) else none

/-- Match exactly `n` digits (`\d{n}`). -/
def digN : Nat → Str → Option (Str × Str)
  | 0, l => some ([], l)
  | _ + 1, [] => none
  | n + 1, c :: cs =>
    if c.isDigit then (digN n cs).map (fun dr => (c :: dr.1, dr.2)) else none

/-- Match one or more digits greedily (`\d+`). -/
def digPlus (l : Str) : Option (Str × Str) :=
  let d := l.takeWhile Char.isDigit
  if d.isEmpty then none else some (d, l.drop d.length)

/-- `parseInt(s, 10)` on an all-digit string. -/
def parseNatDigits (l : Str) : Nat :=
  l.foldl (fun a c => 10 * a + (c.toNat - 48)) 0

/-- The class `[A-Za-zÀ-ÿ\s]` used by the citizenship and
current-international groups. -/
def inLetterCls (c : Char) : Bool :=
  ('A' ≤ c && c ≤ 'Z') || ('a' ≤ c && c ≤ 'z') ||
  ('À' ≤ c && c ≤ 'ÿ') || isWsJS c

/-- Lazy nonempty class group `[cls]+?` followed by `tail`: the group
expands one character at a time and the shortest expansion whose tail
matches wins. -/
def lazyClsUntil (cls : Char → Bool) (tail : Str → Option β) : Str → Option (Str × β)
  | [] => none
  | c :: cs =>
    if cls c then
      match tail cs with
      | some b => some ([c], b)
      | none => (lazyClsUntil cls tail cs).map (fun gb => (c :: gb.1, gb.2))
    else none

/-- Greedy `\s*` with backtracking: `attempt` is tried after consuming
`j` whitespace characters, longest first. -/
def wsBacktrack (attempt : Str → Option β) : Nat → Str → Option β
  | 0, l => attempt l
  | j + 1, l =>
    match attempt (l.drop (j + 1)) with
    | some b => some b
    | none => wsBacktrack attempt j l

/-! ## Field extraction: the rules named by the claims -/

/-- Position attempt of the primary date-of-birth pattern
`Date of birth\/Age:\s*(\d{2}\/\d{2}\/\d{4})\s*\((\d+)\)`; returns the
date capture and the age capture. -/
def dob1At (l : Str) : Option (Str × Str) := do
  let r1 ← lit "Date of birth/Age:".data l
  let r2 := r1.dropWhile isWsJS
  let (a1, r3) ← digN 2 r2
  let r4 ← lit "/".data r3
  let (a2, r5) ← digN 2 r4
  let r6 ← lit "/".data r5
  let (a3, r7) ← digN 4 r6
  let r8 := r7.dropWhile isWsJS
  let r9 ← lit "(".data r8
  let (ag, r10) ← digPlus r9
  let _ ← lit ")".data r10
  pure (a1 ++ '/' :: (a2 ++ '/' :: a3), ag)

/-- Position attempt of the fallback pattern
`Date of birth:\s*(\d{2}\/\d{2}\/\d{4})`. -/
def dob2At (l : Str) : Option Str := do
  let r1 ← lit "Date of birth:".data l
  let r2 := r1.dropWhile isWsJS
  let (a1, r3) ← digN 2 r2
  let r4 ← lit "/".data r3
  let (a2, r5) ← digN 2 r4
  let r6 ← lit "/".data r5
  let (a3, _) ← digN 4 r6
  pure (a1 ++ '/' :: (a2 ++ '/' :: a3))

/-- The `dobPatterns` cascade of `scrapePlayerProfile`: the first
pattern that matches wins; the fallback has no age group, so `age`
stays null there. -/
def extractDOBAge (body : Str) : Option Str × Option Nat :=
  match scanFirst dob1At body with
  | some da => (some da.1, some (parseNatDigits da.2))
  | none =>
    match scanFirst dob2At body with
    | some d => (some d, none)
    | none => (none, none)

/-- Tail of the current-international pattern after the lazy team
group: `\s*Caps\/Goals:\s*(\d+)\s*\/\s*(\d+)` (with the `i` flag);
returns the caps and goals captures. -/
def intlTail (l : Str) : Option (Str × Str) := do
  let r1 := l.dropWhile isWsJS
  let r2 ← litCI "Caps/Goals:".data r1
  let r3 := r2.dropWhile isWsJS
  let (caps, r4) ← digPlus r3
  let r5 := r4.dropWhile isWsJS
  let r6 ← lit "/".data r5
  let r7 := r6.dropWhile isWsJS
  let (goals, _) ← digPlus r7
  pure (caps, goals)

/-- Position attempt of
`Current international:\s*([A-Za-zÀ-ÿ\s]+?)\s*Caps\/Goals:\s*(\d+)\s*\/\s*(\d+)`
(`im` flags; no anchors, so `m` is inert): team group, caps, goals. -/
def intlAt (l : Str) : Option (Str × Str × Str) := do
  let r ← litCI "Current international:".data l
  let gb ← wsBacktrack (lazyClsUntil inLetterCls intlTail) (r.takeWhile isWsJS).length r
  pure (gb.1, gb.2.1, gb.2.2)

/-- The international-team extraction of `scrapePlayerProfile`:
`cleanText` on the team group, `parseInt` on caps and goals. -/
def extractIntl (body : Str) : Option Str × Option Nat × Option Nat :=
  match scanFirst intlAt body with
  | some g => (some (cleanText (some g.1)), some (parseNatDigits g.2.1), some (parseNatDigits g.2.2))
  | none => (none, none, none)

/-- The optional suffix `[mk]?` of the market-value pattern (with the
`i` flag it also matches `M` and `K`). -/
def optMK (l : Str) : Str :=
  match l with
  | c :: _ => if c = 'm' || c = 'k' || c = 'M' || c = 'K' then [c] else []
  | [] => []

/-- The class `[\d,.]` of the market-value pattern. -/
def isMvBody (c : Char) : Bool := c.isDigit || c = ',' || c = '.'

/-- Position attempt of `(€[\d,.]+[mk]?)` (`i` flag). -/
def mvAt (l : Str) : Option Str :=
  match l with
  | c :: cs =>
    if c = '€' then
      let d := cs.takeWhile isMvBody
      if d.isEmpty then none
      else some ('€' :: (d ++ optMK (cs.drop d.length)))
    else none
  | [] => none

/-- The market-value loop of `scrapePlayerProfile` over the texts of
the `a.data-header__market-value-wrapper` elements: at the first
element whose cleaned text contains `€` the pattern is matched and the
loop breaks whether or not the match succeeded. -/
def marketValueScan : List (Option Str) → Option Str
  | [] => none
  | t :: ts =>
    let txt := cleanText t
    if txt ≠ [] ∧ '€' ∈ txt then
      match scanFirst mvAt txt with
      | some v => some v
      | none => none
    else marketValueScan ts

/-- Start-of-separator test `\s{2,}` of the citizenship terminator. -/
def ws2Start (l : Str) : Bool :=
  match l with
  | a :: b :: _ => isWsJS a && isWsJS b
  | _ => false

/-- `$` under the `m` flag: end of input or before a line terminator. -/
def dollarMultiline (l : Str) : Bool :=
  match l with
  | [] => true
  | c :: _ => c = '\n' || c = '\r' || c = ' ' || c = ' '

/-- The citizenship terminator `(?:\s{2,}|Position|Height|Foot|$)`
(`m` flag). -/
def citTermB (l : Str) : Bool :=
  ws2Start l || isPre "Position".data l || isPre "Height".data l ||
  isPre "Foot".data l || dollarMultiline l

/-- Position attempt of
`Citizenship:\s*([A-Za-zÀ-ÿ\s]+?)(?:\s{2,}|Position|Height|Foot|$)`
(`m` flag): returns the lazy group. -/
def citizenAt (l : Str) : Option Str := do
  let r ← lit "Citizenship:".data l
  let gb ← wsBacktrack
    (lazyClsUntil inLetterCls (fun rest => if citTermB rest then some () else none))
    (r.takeWhile isWsJS).length r
  pure gb.1

/-- JavaScript `str.split(/\s{2,}/)`: split at every maximal run of at
least two whitespace characters.  The fuel is the length of the list. -/
def splitWs2F : Nat → Str → List Str
  | 0, l => [l]
  | _ + 1, [] => [[]]
  | fuel + 1, c :: cs =>
    if ws2Start (c :: cs) then [] :: splitWs2F fuel (cs.dropWhile isWsJS)
    else
      match splitWs2F fuel cs with
      | [] => [[c]]
      | p :: ps => (c :: p) :: ps

/-- `str.split(/\s{2,}/)`. -/
def splitWs2 (l : Str) : List Str := splitWs2F l.length l

/-- The citizenship extraction of `scrapePlayerProfile`:
`match[1].trim().split(/\s{2,}/).map(c => c.trim()).filter(c => c.length > 1)`,
or the empty list when the pattern does not match. -/
def extractCitizenship (body : Str) : List Str :=
  match scanFirst citizenAt body with
  | none => []
  | some g => ((splitWs2 (trimWs g)).map trimWs).filter (fun c => decide (1 < c.length))

/-- The `citizenship` field of the record returned by
`scrapePlayerProfile`: `citizenship.length > 0 ? citizenship : null`. -/
def citizenshipField (body : Str) : Option (List Str) :=
  let cz := extractCitizenship body
  if cz.length > 0 then some cz else none

/-! ## Asset resolution -/

/-- Outcome of one `fetch` of a URL: a thrown error (network failure),
or a response with its `ok` flag and the byte length of its body. -/
inductive FetchR where
  | fail : FetchR
  | resp (ok : Bool) (bytes : Nat) : FetchR
deriving DecidableEq

/-- Observable trace of one `downloadPlayerImage` call: the returned
local path (or null), the URLs fetched in order, and the file paths
written. -/
structure DlTrace where
  result : Option Str
  fetched : List Str
  written : List Str
deriving DecidableEq

/-- The local path `public/images/players/${teamSlug}/${id}.jpg`. -/
def imagePath (p : PlayerR) : Str :=
  "public/images/players/".data ++ p.teamSlug ++ ('/' :: (p.id ++ ".jpg".data))

/-- `saveImage` of `scrape-transfermarkt.ts`: bodies under 1000 bytes
are rejected before any directory creation or file write. -/
def saveImage (p : PlayerR) (bytes : Nat) (fetched : List Str) : DlTrace :=
  if bytes < 1000 then ⟨none, fetched, []⟩
  else ⟨some (imagePath p), fetched, [imagePath p]⟩

/-- `downloadPlayerImage` of `scrape-transfermarkt.ts`: on a
non-success response the `-1`-suffixed alternate URL
(`imageUrl.replace('.jpg', '-1.jpg')`) is fetched once; any thrown
error is caught and yields null. -/
def downloadPlayerImageMain (fetch : Str → FetchR) (p : PlayerR) : DlTrace :=
  match p.imageUrl with
  | none => ⟨none, [], []⟩
  | some u =>
    if u.isEmpty then ⟨none, [], []⟩
    else
      match fetch u with
      | .fail => ⟨none, [u], []⟩
      | .resp ok bytes =>
        if ok then saveImage p bytes [u]
        else
          match fetch (replaceOnce ".jpg".data "-1.jpg".data u) with
          | .fail => ⟨none, [u, replaceOnce ".jpg".data "-1.jpg".data u], []⟩
          | .resp ok2 bytes2 =>
            if ok2 then saveImage p bytes2 [u, replaceOnce ".jpg".data "-1.jpg".data u]
            else ⟨none, [u, replaceOnce ".jpg".data "-1.jpg".data u], []⟩

/-- `downloadPlayerImage` of the full-profile script
(`test-single-player.ts`): a non-success response yields null at once,
with no alternate URL; the size check and write are inline. -/
def downloadPlayerImageFull (fetch : Str → FetchR) (p : PlayerR) : DlTrace :=
  match p.imageUrl with
  | none => ⟨none, [], []⟩
  | some u =>
    if u.isEmpty then ⟨none, [], []⟩
    else
      match fetch u with
      | .fail => ⟨none, [u], []⟩
      | .resp ok bytes =>
        if !ok then ⟨none, [u], []⟩
        else if bytes < 1000 then ⟨none, [u], []⟩
        else ⟨some (imagePath p), [u], [imagePath p]⟩

/-! ## Run control flow

The two `main` functions are modelled up to the stages the error
taxonomy talks about: the listing fetch (an `Except` value), the
per-team squad fetches and the per-player profile fetches (oracles
returning `Except`).  Errors are opaque and modelled as numbers.  The
collected error list of a loop stands for its logged-and-skipped
entities. -/

/-- Opaque error values. -/
abbrev Err := Nat

/-- Boolean success test for an `Except` value. -/
def exOk : Except Err α → Bool
  | .ok _ => true
  | .error _ => false

/-- The basic player info produced by `scrapeTeamPlayerList` in the
full-profile script. -/
structure PBasic where
  id : Str
  name : Str
  url : Str
deriving DecidableEq

/-- The team loop of `main` in `scrape-transfermarkt.ts`: each
`scrapeTeamPlayers` call is inside `try`/`catch`, so a failing team is
logged (collected) and skipped. -/
def teamLoop (squad : TeamR → Except Err (List PlayerR)) : List TeamR → List PlayerR × List TeamR
  | [] => ([], [])
  | t :: ts =>
    match squad t with
    | .ok ps =>
      let r := teamLoop squad ts
      (ps ++ r.1, r.2)
    | .error _ =>
      let r := teamLoop squad ts
      (r.1, t :: r.2)

/-- `main` of `scrape-transfermarkt.ts` up to player collection: the
listing fetch is not guarded, the team loop is. -/
def runMain (listing : Except Err (List AnchorEl))
    (squad : TeamR → Except Err (List PlayerR)) :
    Except Err (List PlayerR × List TeamR) :=
  match listing with
  | .error e => .error e
  | .ok anchors => .ok (teamLoop squad (scrapeTeams anchors))

/-- The squad-list loop of `main` in the full-profile script: the
`scrapeTeamPlayerList` calls are not guarded, so the first failure
propagates. -/
def squadLoopFull (squadL : TeamR → Except Err (List PBasic)) :
    List TeamR → Except Err (List (TeamR × List PBasic))
  | [] => .ok []
  | t :: ts =>
    match squadL t with
    | .error e => .error e
    | .ok ps =>
      match squadLoopFull squadL ts with
      | .error e => .error e
      | .ok rest => .ok ((t, ps) :: rest)

/-- The per-player profile loop of `main` in the full-profile script:
each `scrapePlayerProfile` call is inside `try`/`catch`, so a failing
player is logged (collected) and skipped. -/
def playerProfileLoop (prof : PBasic → TeamR → Except Err α) (t : TeamR) :
    List PBasic → List α × List PBasic
  | [] => ([], [])
  | pb :: pbs =>
    match prof pb t with
    | .ok pl =>
      let r := playerProfileLoop prof t pbs
      (pl :: r.1, r.2)
    | .error _ =>
      let r := playerProfileLoop prof t pbs
      (r.1, pb :: r.2)

/-- The outer profile loop over all team squads. -/
def profileLoopFull (prof : PBasic → TeamR → Except Err α) :
    List (TeamR × List PBasic) → List α × List PBasic
  | [] => ([], [])
  | (t, ps) :: rest =>
    let a := playerProfileLoop prof t ps
    let b := profileLoopFull prof rest
    (a.1 ++ b.1, a.2 ++ b.2)

/-- `main` of the full-profile script up to profile collection. -/
def runMainFull (listing : Except Err (List AnchorEl))
    (squadL : TeamR → Except Err (List PBasic))
    (prof : PBasic → TeamR → Except Err α) :
    Except Err (List α × List PBasic) :=
  match listing with
  | .error e => .error e
  | .ok anchors =>
    match squadLoopFull squadL (scrapeTeams anchors) with
    | .error e => .error e
    | .ok pairs => .ok (profileLoopFull prof pairs)

/-! ## Concrete inputs used by counterexamples and witnesses -/

/-- An anchor with both attributes present. -/
def mkAnchor (h n : String) : AnchorEl := ⟨some h.data, some n.data⟩

/-- The id claimed by an anchor that matches the team href regex
(statement-side notion for counting "anchors matching the pattern"). -/
def anchorTeamId (a : AnchorEl) : Option Str :=
  match a.href with
  | some h => if matchesTeamHref h then some (extractId h "verein".data) else none
  | none => none

/-- A listing page with 25 anchors matching the team href regex over
20 distinct ids (ids 101-105 duplicated), where the only anchor of id
120 carries a purely numeric name. -/
def pageBad : List AnchorEl :=
  [mkAnchor "/t101/startseite/verein/101" "Team One",
   mkAnchor "/t102/startseite/verein/102" "Team Two",
   mkAnchor "/t103/startseite/verein/103" "Team Three",
   mkAnchor "/t104/startseite/verein/104" "Team Four",
   mkAnchor "/t105/startseite/verein/105" "Team Five",
   mkAnchor "/t106/startseite/verein/106" "Team Six",
   mkAnchor "/t107/startseite/verein/107" "Team Seven",
   mkAnchor "/t108/startseite/verein/108" "Team Eight",
   mkAnchor "/t109/startseite/verein/109" "Team Nine",
   mkAnchor "/t110/startseite/verein/110" "Team Ten",
   mkAnchor "/t111/startseite/verein/111" "Team Eleven",
   mkAnchor "/t112/startseite/verein/112" "Team Twelve",
   mkAnchor "/t113/startseite/verein/113" "Team Thirteen",
   mkAnchor "/t114/startseite/verein/114" "Team Fourteen",
   mkAnchor "/t115/startseite/verein/115" "Team Fifteen",
   mkAnchor "/t116/startseite/verein/116" "Team Sixteen",
   mkAnchor "/t117/startseite/verein/117" "Team Seventeen",
   mkAnchor "/t118/startseite/verein/118" "Team Eighteen",
   mkAnchor "/t119/startseite/verein/119" "Team Nineteen",
   mkAnchor "/t120/startseite/verein/120" "99999",
   mkAnchor "/t101/startseite/verein/101" "Team One Again",
   mkAnchor "/t102/startseite/verein/102" "Team Two Again",
   mkAnchor "/t103/startseite/verein/103" "Team Three Again",
   mkAnchor "/t104/startseite/verein/104" "Team Four Again",
   mkAnchor "/t105/startseite/verein/105" "Team Five Again"]

/-- The same listing page with a valid name on the id-120 anchor. -/
def pageGood : List AnchorEl :=
  [mkAnchor "/t101/startseite/verein/101" "Team One",
   mkAnchor "/t102/startseite/verein/102" "Team Two",
   mkAnchor "/t103/startseite/verein/103" "Team Three",
   mkAnchor "/t104/startseite/verein/104" "Team Four",
   mkAnchor "/t105/startseite/verein/105" "Team Five",
   mkAnchor "/t106/startseite/verein/106" "Team Six",
   mkAnchor "/t107/startseite/verein/107" "Team Seven",
   mkAnchor "/t108/startseite/verein/108" "Team Eight",
   mkAnchor "/t109/startseite/verein/109" "Team Nine",
   mkAnchor "/t110/startseite/verein/110" "Team Ten",
   mkAnchor "/t111/startseite/verein/111" "Team Eleven",
   mkAnchor "/t112/startseite/verein/112" "Team Twelve",
   mkAnchor "/t113/startseite/verein/113" "Team Thirteen",
   mkAnchor "/t114/startseite/verein/114" "Team Fourteen",
   mkAnchor "/t115/startseite/verein/115" "Team Fifteen",
   mkAnchor "/t116/startseite/verein/116" "Team Sixteen",
   mkAnchor "/t117/startseite/verein/117" "Team Seventeen",
   mkAnchor "/t118/startseite/verein/118" "Team Eighteen",
   mkAnchor "/t119/startseite/verein/119" "Team Nineteen",
   mkAnchor "/t120/startseite/verein/120" "Team Twenty",
   mkAnchor "/t101/startseite/verein/101" "Team One Again",
   mkAnchor "/t102/startseite/verein/102" "Team Two Again",
   mkAnchor "/t103/startseite/verein/103" "Team Three Again",
   mkAnchor "/t104/startseite/verein/104" "Team Four Again",
   mkAnchor "/t105/startseite/verein/105" "Team Five Again"]

/-- A small mixed page: a duplicated team anchor, a second team, a
duplicated player anchor, and an href-less anchor. -/
def pageMixed : List AnchorEl :=
  [mkAnchor "/a-fc/startseite/verein/1" "Team A",
   mkAnchor "/a-fc/startseite/verein/1" "Duplicate Name",
   mkAnchor "/b-fc/startseite/verein/2" "Team B",
   mkAnchor "/john-doe/profil/spieler/77" "John Doe",
   mkAnchor "/john-doe/profil/spieler/77" "J. Doe",
   ⟨none, some "no href".data⟩]

/-- The team record discovered from the first anchor of `pageMixed`. -/
def teamA : TeamR :=
  ⟨"Team A".data, baseUrl ++ "/a-fc/startseite/verein/1".data, "a-fc".data, "1".data⟩

/-- The player record discovered from the fourth anchor of `pageMixed`
in the context of `teamA`. -/
def playerJD : PlayerR :=
  ⟨"77".data, "John Doe".data, baseUrl ++ "/john-doe/profil/spieler/77".data,
   some (constructImageUrl "77".data), none, none, none, teamA.name, teamA.slug⟩

/-- A player whose image URL is the templated one for id 123. -/
def playerX : PlayerR :=
  ⟨"123".data, "John Doe".data, baseUrl ++ "/john-doe/profil/spieler/123".data,
   some (constructImageUrl "123".data), none, none, none, "Team A".data, "a-fc".data⟩

/-- A fetch oracle whose every response is non-success. -/
def fetchDown : Str → FetchR := fun _ => FetchR.resp false 0

/-- A fetch oracle whose every response is success with a 5-byte body. -/
def fetchSmall : Str → FetchR := fun _ => FetchR.resp true 5

/-- The date-of-birth fragment named by the spec. -/
def fragDOB : Str := "Date of birth/Age: 15/08/1998 (27)".data

/-- The current-international fragment named by the spec. -/
def fragIntl : Str := "Current international: Sweden Caps/Goals: 30 / 15".data

/-! ## Generic lemmas about the scanners -/

theorem scanFirst_of_head (p : Str → Option α) (l : Str) (r : α) (h : p l = some r) :
    scanFirst p l = some r := by
  cases l with
  | nil => simpa [scanFirst] using h
  | cons c cs => simp [scanFirst, h]

theorem scanFirst_cons_none (p : Str → Option α) (c : Char) (cs : Str)
    (h : p (c :: cs) = none) :
    scanFirst p (c :: cs) = scanFirst p cs := by
  simp [scanFirst, h]

theorem scanFirst_skip (p : Str → Option α) (a b : Str)
    (h : ∀ t, t <:+ a → t ≠ [] → p (t ++ b) = none) :
    scanFirst p (a ++ b) = scanFirst p b := by
  induction a with
  | nil => rfl
  | cons x xs ih =>
    have h0 : p ((x :: xs) ++ b) = none := h (x :: xs) (List.suffix_refl _) (by simp)
    simp only [List.cons_append] at h0 ⊢
    calc scanFirst p (x :: (xs ++ b)) = scanFirst p (xs ++ b) := by
          simp [scanFirst, h0]
      _ = scanFirst p b := ih (fun t ht hne => h t (ht.trans (List.suffix_cons x xs)) hne)

theorem isPre_self_append (l t : Str) : isPre l (l ++ t) = true := by
  induction l with
  | nil => rfl
  | cons c cs ih => simp [isPre, ih]

theorem takeWhile_all_append (p : Char → Bool) (a b : Str)
    (ha : ∀ c ∈ a, p c = true) (hb : ∀ d, b.head? = some d → p d = false) :
    (a ++ b).takeWhile p = a := by
  induction a with
  | nil =>
    cases b with
    | nil => rfl
    | cons d ds => simp [List.takeWhile_cons, hb d rfl]
  | cons c cs ih =>
    have hc : p c = true := ha c (List.mem_cons_self c cs)
    simp [List.takeWhile_cons, hc,
      ih (fun x hx => ha x (List.mem_cons_of_mem c hx))]

/-! ## Claim C1: the text-normalizer round trip -/

/-- Claim C1 counterexample: `cleanText` applied to the spec's
round-trip input `"A&amp;nbsp;&nbsp;B"` does not return `"A& B"`. -/
theorem C1_cex :
    cleanText (some "A&amp;nbsp;&nbsp;B".data) ≠ "A& B".data := by
  decide

/-- Claim C1 (amended): each entity is replaced in its own
left-to-right pass, in source order with `&nbsp;` first, and text
produced by a later pass is not rescanned; so decoding `&amp;` before
the literal `nbsp;` text leaves an undecoded `&nbsp;` behind and
`cleanText "A&amp;nbsp;&nbsp;B" = "A&nbsp; B"`, not `"A& B"`. -/
theorem C1_thm :
    cleanText (some "A&amp;nbsp;&nbsp;B".data) = "A&nbsp; B".data := by
  decide

/-! ## Claim C9: market-value extraction -/

/-- Claim C9: on an element whose text is `"€75.00m market value"` the
market-value loop yields `"€75.00m"`, ignoring the trailing text and
breaking at the first element containing `€` (later elements `ts` are
never consulted). -/
theorem C9_thm (ts : List (Option Str)) :
    marketValueScan (some "€75.00m market value".data :: ts) = some "€75.00m".data := rfl

/-! ## Claim C10: the citizenship field is null or a nonempty list -/

/-- Claim C10: when the citizenship rule matches nothing the assembled
record's citizenship field is null; when the field is present it is a
nonempty list of tokens each longer than one character (so it is never
the empty list). -/
theorem C10_thm (body : Str) :
    (scanFirst citizenAt body = none → citizenshipField body = none) ∧
    (∀ l, citizenshipField body = some l → l ≠ [] ∧ ∀ t ∈ l, 1 < t.length) := by
  constructor
  · intro h
    simp [citizenshipField, extractCitizenship, h]
  · intro l hl
    simp only [citizenshipField] at hl
    split at hl
    case isTrue hpos =>
      cases hl
      refine ⟨List.length_pos.mp hpos, ?_⟩
      intro t ht
      cases hsc : scanFirst citizenAt body with
      | none => simp [extractCitizenship, hsc] at ht
      | some g =>
        simp [extractCitizenship, hsc, List.mem_filter] at ht
        exact ht.2
    case isFalse hneg => exact absurd hl (by simp)

/-- Claim C10 witness: a body with no citizenship label yields a null
field, and on `"Citizenship: Sweden  Height: 1,85 m"` the field is the
nonempty all-long-token list `["Sweden"]`. -/
theorem C10_witness :
    citizenshipField "no label here".data = none ∧
    (["Sweden".data] ≠ [] ∧ ∀ t ∈ ["Sweden".data], 1 < t.length) :=
  ⟨(C10_thm "no label here".data).1 (by decide),
   (C10_thm "Citizenship: Sweden  Height: 1,85 m".data).2 ["Sweden".data] (by decide)⟩

/-! ## Deduplication lemmas -/

theorem teamsScan_eq (as : List AnchorEl) (seen : List Str) :
    teamsScan as seen = dedupByKey TeamR.id (as.filterMap teamCandidate) seen := by
  induction as generalizing seen with
  | nil => rfl
  | cons a as ih =>
    cases h : teamCandidate a with
    | none => simp [teamsScan, h, List.filterMap_cons, ih]
    | some t =>
      simp only [teamsScan, h, List.filterMap_cons, dedupByKey]
      by_cases hm : t.id ∈ seen
      · simp [hm, ih]
      · simp [hm, ih]

theorem playersScan_eq (team : TeamR) (as : List AnchorEl) (seen : List Str) :
    playersScan team as seen =
      dedupByKey PlayerR.id (as.filterMap (playerCandidate team)) seen := by
  induction as generalizing seen with
  | nil => rfl
  | cons a as ih =>
    cases h : playerCandidate team a with
    | none => simp [playersScan, h, List.filterMap_cons, ih]
    | some p =>
      simp only [playersScan, h, List.filterMap_cons, dedupByKey]
      by_cases hm : p.id ∈ seen
      · simp [hm, ih]
      · simp [hm, ih]

theorem dedupByKey_map_key (key : α → Str) (xs : List α) (seen : List Str) :
    (dedupByKey key xs seen).map key = fsDedup (xs.map key) seen := by
  induction xs generalizing seen with
  | nil => rfl
  | cons x xs ih =>
    simp only [dedupByKey, List.map_cons, fsDedup]
    by_cases hm : key x ∈ seen
    · simp [hm, ih]
    · simp [hm, ih]

theorem fsDedup_nodup_notin (ks seen : List Str) :
    (fsDedup ks seen).Nodup ∧ ∀ k ∈ fsDedup ks seen, k ∉ seen := by
  induction ks generalizing seen with
  | nil => simp [fsDedup]
  | cons k ks ih =>
    by_cases hm : k ∈ seen
    · simpa [fsDedup, hm] using ih seen
    · obtain ⟨h1, h2⟩ := ih (k :: seen)
      simp only [fsDedup, hm, if_false]
      refine ⟨List.nodup_cons.mpr
        ⟨fun hmem => (h2 k hmem) (List.mem_cons_self k seen), h1⟩, ?_⟩
      intro x hx
      rcases List.mem_cons.mp hx with rfl | hx'
      · exact hm
      · exact fun hxs => (h2 x hx') (List.mem_cons_of_mem k hxs)

theorem dedupByKey_find (key : α → Str) (xs : List α) (seen : List Str) (x : α)
    (hx : x ∈ dedupByKey key xs seen) :
    key x ∉ seen ∧ xs.find? (fun y => key y == key x) = some x := by
  induction xs generalizing seen with
  | nil => simp [dedupByKey] at hx
  | cons z zs ih =>
    simp only [dedupByKey] at hx
    by_cases hz : key z ∈ seen
    · rw [if_pos hz] at hx
      obtain ⟨h1, h2⟩ := ih seen hx
      have hne : (key z == key x) = false :=
        beq_eq_false_iff_ne.mpr (fun he => h1 (he ▸ hz))
      refine ⟨h1, ?_⟩
      rw [List.find?_cons_of_neg _ (by simp [hne]), h2]
    · rw [if_neg hz] at hx
      rcases List.mem_cons.mp hx with rfl | hx'
      · refine ⟨hz, ?_⟩
        rw [List.find?_cons_of_pos _ (by simp)]
      · obtain ⟨h1, h2⟩ := ih (key z :: seen) hx'
        have hzx : key x ≠ key z := fun he => h1 (he ▸ List.mem_cons_self _ _)
        have hne : (key z == key x) = false :=
          beq_eq_false_iff_ne.mpr (fun he => hzx he.symm)
        refine ⟨fun hs => h1 (List.mem_cons_of_mem _ hs), ?_⟩
        rw [List.find?_cons_of_neg _ (by simp [hne]), h2]

/-! ## Claim C4: discovery passes deduplicate by id, first seen wins -/

/-- Claim C4: in both discovery passes the returned list has
pairwise-distinct ids; every returned entry is the candidate built
from the first matching anchor carrying its id (so on duplicate ids
with different names the first-seen name is retained); and the output
order is the insertion order of first occurrences (the first-seen
deduplication of the candidate id sequence, truncated to 20 for
teams). -/
theorem C4_thm (anchors : List AnchorEl) (team : TeamR) :
    ((scrapeTeams anchors).map TeamR.id).Nodup ∧
    (∀ t ∈ scrapeTeams anchors,
      (anchors.filterMap teamCandidate).find? (fun u => u.id == t.id) = some t) ∧
    (scrapeTeams anchors).map TeamR.id =
      (fsDedup ((anchors.filterMap teamCandidate).map TeamR.id) []).take 20 ∧
    ((scrapeTeamPlayers team anchors).map PlayerR.id).Nodup ∧
    (∀ p ∈ scrapeTeamPlayers team anchors,
      (anchors.filterMap (playerCandidate team)).find? (fun q => q.id == p.id) = some p) ∧
    (scrapeTeamPlayers team anchors).map PlayerR.id =
      fsDedup ((anchors.filterMap (playerCandidate team)).map PlayerR.id) [] := by
  have hT := teamsScan_eq anchors []
  have hP := playersScan_eq team anchors []
  have hTm : (teamsScan anchors []).map TeamR.id =
      fsDedup ((anchors.filterMap teamCandidate).map TeamR.id) [] := by
    rw [hT, dedupByKey_map_key]
  have hPm : (playersScan team anchors []).map PlayerR.id =
      fsDedup ((anchors.filterMap (playerCandidate team)).map PlayerR.id) [] := by
    rw [hP, dedupByKey_map_key]
  refine ⟨?_, ?_, ?_, ?_, ?_, ?_⟩
  · rw [scrapeTeams, List.map_take, hTm]
    exact List.Nodup.sublist (List.take_sublist _ _) (fsDedup_nodup_notin _ _).1
  · intro t ht
    rw [scrapeTeams] at ht
    have ht' : t ∈ teamsScan anchors [] := List.take_subset 20 _ ht
    rw [hT] at ht'
    exact (dedupByKey_find TeamR.id _ [] t ht').2
  · rw [scrapeTeams, List.map_take, hTm]
  · rw [scrapeTeamPlayers, hPm]
    exact (fsDedup_nodup_notin _ _).1
  · intro p hp
    rw [scrapeTeamPlayers, hP] at hp
    exact (dedupByKey_find PlayerR.id _ [] p hp).2
  · rw [scrapeTeamPlayers, hPm]

/-- Claim C4 witness: on the concrete mixed page the team and player
entries retained for the duplicated ids are the first-seen ones, and
the discovered team ids are pairwise distinct. -/
theorem C4_witness :
    (pageMixed.filterMap teamCandidate).find? (fun u => u.id == teamA.id) = some teamA ∧
    (pageMixed.filterMap (playerCandidate teamA)).find? (fun q => q.id == playerJD.id) =
      some playerJD ∧
    ((scrapeTeams pageMixed).map TeamR.id).Nodup := by
  refine ⟨?_, ?_, (C4_thm pageMixed teamA).1⟩
  · exact (C4_thm pageMixed teamA).2.1 teamA (by decide)
  · exact (C4_thm pageMixed teamA).2.2.2.2.1 playerJD (by decide)

/-! ## Claim C3: the 25-anchor listing page -/

/-- Claim C3 counterexample: a listing page with 25 anchors matching
the team href pattern, 5 of them duplicate ids (20 distinct), for
which team discovery returns 19 teams, not 20: the only anchor of one
id has a purely numeric name and is dropped by the name filter. -/
theorem C3_cex :
    (pageBad.filterMap anchorTeamId).length = 25 ∧
    (fsDedup (pageBad.filterMap anchorTeamId) []).length = 20 ∧
    (scrapeTeams pageBad).length = 19 := by
  decide

/-- Claim C3 (amended): for every listing page whose anchors accepted
by the team filter (href matching the pattern and a valid cleaned
name: length at least 3, not purely numeric) number 25 with 20
distinct ids, team discovery returns exactly 20 teams, the first-seen
deduplication of the accepted candidates, in first-seen order (the
top-20 truncation is exact there). -/
theorem C3_thm (anchors : List AnchorEl)
    (h25 : (anchors.filterMap teamCandidate).length = 25)
    (h20 : (fsDedup ((anchors.filterMap teamCandidate).map TeamR.id) []).length = 20) :
    (scrapeTeams anchors).length = 20 ∧
    scrapeTeams anchors = dedupByKey TeamR.id (anchors.filterMap teamCandidate) [] ∧
    (scrapeTeams anchors).map TeamR.id =
      fsDedup ((anchors.filterMap teamCandidate).map TeamR.id) [] := by
  have hT := teamsScan_eq anchors []
  have hmap : (teamsScan anchors []).map TeamR.id =
      fsDedup ((anchors.filterMap teamCandidate).map TeamR.id) [] := by
    rw [hT, dedupByKey_map_key]
  have hlen : (teamsScan anchors []).length = 20 := by
    have := congrArg List.length hmap
    rwa [List.length_map, h20] at this
  have htake : (teamsScan anchors []).take 20 = teamsScan anchors [] :=
    List.take_of_length_le (le_of_eq hlen)
  refine ⟨?_, ?_, ?_⟩
  · rw [scrapeTeams, htake, hlen]
  · rw [scrapeTeams, htake, hT]
  · rw [scrapeTeams, htake, hmap]

/-- Claim C3 witness: the good 25-anchor page (20 distinct ids, all
names valid) yields exactly 20 teams in first-seen id order. -/
theorem C3_witness :
    (scrapeTeams pageGood).length = 20 ∧
    (scrapeTeams pageGood).map TeamR.id =
      fsDedup ((pageGood.filterMap teamCandidate).map TeamR.id) [] := by
  have h := C3_thm pageGood (by decide) (by decide)
  exact ⟨h.1, h.2.2⟩

/-! ## Claim C6: the identifier and slug resolver -/

theorem idAt_none_of_head_ne (kind : Str) (c : Char) (cs : Str) (hc : c ≠ '/') :
    idAt kind (c :: cs) = none := by
  have hb : ('/' == c) = false := beq_eq_false_iff_ne.mpr (Ne.symm hc)
  simp [idAt, idMarker, isPre, hb]

theorem scanFirst_skip_noslash (kind a b : Str) (ha : ∀ c ∈ a, c ≠ '/') :
    scanFirst (idAt kind) (a ++ b) = scanFirst (idAt kind) b := by
  apply scanFirst_skip
  intro t ht hne
  cases t with
  | nil => exact absurd rfl hne
  | cons c cs =>
    have hc : c ≠ '/' := ha c (ht.subset (List.mem_cons_self c cs))
    simpa using idAt_none_of_head_ne kind c (cs ++ b) hc

theorem isPre_word_slash (w : Str) : ∀ (s z : Str), '/' ∉ w → '/' ∉ s →
    (isPre (w ++ ['/']) (s ++ '/' :: z) = true ↔ s = w) := by
  induction w with
  | nil =>
    intro s z _ hs
    cases s with
    | nil => simp [isPre]
    | cons a s' =>
      have hb : ('/' == a) = false :=
        beq_eq_false_iff_ne.mpr (fun h => hs (h ▸ List.mem_cons_self a s'))
      simp [isPre, hb]
  | cons c w' ih =>
    intro s z hw hs
    have hc : c ≠ '/' := fun h => hw (h ▸ List.mem_cons_self c w')
    have hw' : '/' ∉ w' := fun h => hw (List.mem_cons_of_mem c h)
    cases s with
    | nil =>
      have hb : (c == '/') = false := beq_eq_false_iff_ne.mpr hc
      simp [isPre, hb]
    | cons a s' =>
      have hs' : '/' ∉ s' := fun h => hs (List.mem_cons_of_mem a h)
      by_cases hca : c = a
      · subst hca
        simpa [isPre] using ih s' z hw' hs'
      · have hb : (c == a) = false := beq_eq_false_iff_ne.mpr hca
        have hac : a ≠ c := fun h => hca h.symm
        simp [isPre, hb, hac]

theorem splitOnSlash_append (s : Str) (hs : '/' ∉ s) (z : Str) :
    splitOnSlash (s ++ '/' :: z) = s :: splitOnSlash z := by
  induction s with
  | nil => simp [splitOnSlash]
  | cons c cs ih =>
    have hc : c ≠ '/' := fun h => hs (h ▸ List.mem_cons_self c cs)
    have ih' := ih (fun h => hs (List.mem_cons_of_mem c h))
    simp [splitOnSlash, hc, ih']

theorem teamsScan_skip_none (a : AnchorEl) (ha : teamCandidate a = none) :
    ∀ (pre post : List AnchorEl) (seen : List Str),
    teamsScan (pre ++ a :: post) seen = teamsScan (pre ++ post) seen := by
  intro pre
  induction pre with
  | nil => intro post seen; simp [teamsScan, ha]
  | cons x xs ih =>
    intro post seen
    cases hx : teamCandidate x with
    | none => simp [teamsScan, hx, ih]
    | some t =>
      simp only [List.cons_append, teamsScan, hx]
      by_cases hm : t.id ∈ seen
      · simp [hm, ih]
      · simp [hm, ih]

/-- Claim C6: on every href of the shape `/<slug>/startseite/verein/<digits>`
(with an arbitrary non-digit-starting remainder) `extractId` returns
exactly the digit run and `extractSlug` the first path segment; when
the id regex `/verein/(\d+)` matches nowhere `extractId` returns the
sentinel `"unknown"`; and an anchor whose href does not match the team
pattern yields no candidate and is excluded from team discovery. -/
theorem C6_thm :
    (∀ (slug digits rest : Str), slug ≠ [] → '/' ∉ slug → digits ≠ [] →
      (∀ c ∈ digits, c.isDigit = true) →
      (∀ d, rest.head? = some d → d.isDigit = false) →
      extractId ('/' :: (slug ++ (teamHrefMid ++ (digits ++ rest)))) "verein".data = digits ∧
      extractSlug ('/' :: (slug ++ (teamHrefMid ++ (digits ++ rest)))) = slug) ∧
    (∀ url, scanFirst (idAt "verein".data) url = none →
      extractId url "verein".data = "unknown".data) ∧
    (∀ (a : AnchorEl) (h : Str), a.href = some h → matchesTeamHref h = false →
      teamCandidate a = none) ∧
    (∀ (a : AnchorEl) (pre post : List AnchorEl), teamCandidate a = none →
      scrapeTeams (pre ++ a :: post) = scrapeTeams (pre ++ post)) := by
  refine ⟨?_, ?_, ?_, ?_⟩
  · intro slug digits rest hsne hs hdne hdig hrest
    constructor
    · -- the id: the first match of /verein/(\d+) sits at the marker
      have key : scanFirst (idAt "verein".data)
          ('/' :: (slug ++ (teamHrefMid ++ (digits ++ rest)))) = some digits := by
        have h0 : idAt "verein".data
            ('/' :: (slug ++ (teamHrefMid ++ (digits ++ rest)))) = none := by
          by_cases hsv : slug = "verein".data
          · subst hsv
            rfl
          · have hpre : isPre (idMarker "verein".data)
                ('/' :: (slug ++ (teamHrefMid ++ (digits ++ rest)))) = false := by
              have hiff := isPre_word_slash "verein".data slug
                ("startseite/verein/".data ++ (digits ++ rest)) (by decide) hs
              have hfalse : isPre ("verein".data ++ ['/'])
                  (slug ++ '/' :: ("startseite/verein/".data ++ (digits ++ rest))) = false :=
                Bool.eq_false_iff.mpr (fun h => hsv (hiff.mp h))
              simpa [isPre] using hfalse
            simp [idAt, hpre]
        rw [scanFirst_cons_none _ _ _ h0]
        rw [scanFirst_skip_noslash "verein".data slug _ (fun c hc he => hs (he ▸ hc))]
        rw [show teamHrefMid ++ (digits ++ rest) =
            "/startseite".data ++ ("/verein/".data ++ (digits ++ rest)) from rfl]
        rw [scanFirst_skip (idAt "verein".data) "/startseite".data _ ?hskip]
        case hskip =>
          intro t ht hne
          obtain ⟨s, hs_eq⟩ := ht
          cases s with
          | nil =>
            simp only [List.nil_append] at hs_eq
            subst hs_eq
            rfl
          | cons x s' =>
            have htail : s' ++ t = "startseite".data := by
              have := congrArg List.tail hs_eq
              simpa using this
            cases t with
            | nil => exact absurd rfl hne
            | cons c cs =>
              have hcmem : c ∈ "startseite".data :=
                (show c :: cs <:+ "startseite".data from ⟨s', htail⟩).subset
                  (List.mem_cons_self c cs)
              have hc : c ≠ '/' := by
                intro he
                subst he
                revert hcmem
                decide
              simpa using idAt_none_of_head_ne "verein".data c
                (cs ++ ("/verein/".data ++ (digits ++ rest))) hc
        apply scanFirst_of_head
        rw [show ("/verein/".data : Str) ++ (digits ++ rest) =
            idMarker "verein".data ++ (digits ++ rest) from rfl]
        have hdrop : (idMarker "verein".data ++ (digits ++ rest)).drop
            (idMarker "verein".data).length = digits ++ rest := List.drop_left _ _
        have htw : ((idMarker "verein".data ++ (digits ++ rest)).drop
            (idMarker "verein".data).length).takeWhile Char.isDigit = digits := by
          rw [hdrop]
          exact takeWhile_all_append Char.isDigit digits rest hdig hrest
        rw [idAt, if_pos ⟨isPre_self_append _ _, by rw [htw]; exact hdne⟩, htw]
      simp [extractId, key]
    · -- the slug: the first path segment
      have hsplit : splitOnSlash ('/' :: (slug ++ (teamHrefMid ++ (digits ++ rest)))) =
          [] :: slug :: splitOnSlash ("startseite/verein/".data ++ (digits ++ rest)) := by
        rw [show slug ++ (teamHrefMid ++ (digits ++ rest)) =
            slug ++ '/' :: ("startseite/verein/".data ++ (digits ++ rest)) from rfl]
        simp [splitOnSlash, splitOnSlash_append slug hs]
      have hne : slug.isEmpty = false := by
        cases slug with
        | nil => exact absurd rfl hsne
        | cons c cs => rfl
      simp [extractSlug, hsplit, hne]
  · intro url h
    simp [extractId, h]
  · intro a h hh hm
    simp [teamCandidate, hh, hm]
  · intro a pre post ha
    simp [scrapeTeams, teamsScan_skip_none a ha pre post]

/-- Claim C6 witness: the resolver on the concrete href
`/arsenal-fc/startseite/verein/11/saison_id/2023` returns id `11` and
slug `arsenal-fc`, and the resolver returns `"unknown"` on `/nope`. -/
theorem C6_witness :
    extractId ('/' :: ("arsenal-fc".data ++ (teamHrefMid ++ ("11".data ++ "/saison_id/2023".data))))
      "verein".data = "11".data ∧
    extractSlug ('/' :: ("arsenal-fc".data ++ (teamHrefMid ++ ("11".data ++ "/saison_id/2023".data)))) =
      "arsenal-fc".data ∧
    extractId "/nope".data "verein".data = "unknown".data := by
  have h := C6_thm.1 "arsenal-fc".data "11".data "/saison_id/2023".data
    (by decide) (by decide) (by decide) (by decide) (by decide)
  exact ⟨h.1, h.2, C6_thm.2.1 "/nope".data (by decide)⟩

/-! ## Claim C5: error containment of the two runs -/

theorem teamLoop_eq (squad : TeamR → Except Err (List PlayerR)) (ts : List TeamR) :
    teamLoop squad ts =
      ((ts.filterMap (fun t => (squad t).toOption)).flatten,
       ts.filter (fun t => !exOk (squad t))) := by
  induction ts with
  | nil => rfl
  | cons t ts ih =>
    cases h : squad t with
    | ok ps =>
      simp [teamLoop, h, ih, List.filterMap_cons, List.filter_cons, Except.toOption, exOk]
    | error e =>
      simp [teamLoop, h, ih, List.filterMap_cons, List.filter_cons, Except.toOption, exOk]

theorem playerProfileLoop_eq (prof : PBasic → TeamR → Except Err α) (t : TeamR)
    (ps : List PBasic) :
    playerProfileLoop prof t ps =
      (ps.filterMap (fun pb => (prof pb t).toOption),
       ps.filter (fun pb => !exOk (prof pb t))) := by
  induction ps with
  | nil => rfl
  | cons pb pbs ih =>
    cases h : prof pb t with
    | ok pl =>
      simp [playerProfileLoop, h, ih, List.filterMap_cons, List.filter_cons,
        Except.toOption, exOk]
    | error e =>
      simp [playerProfileLoop, h, ih, List.filterMap_cons, List.filter_cons,
        Except.toOption, exOk]

theorem squadLoopFull_isOk (squadL : TeamR → Except Err (List PBasic)) (ts : List TeamR) :
    exOk (squadLoopFull squadL ts) = ts.all (fun t => exOk (squadL t)) := by
  induction ts with
  | nil => rfl
  | cons t ts ih =>
    cases h : squadL t with
    | error e => simp [squadLoopFull, h, exOk, List.all_cons]
    | ok ps =>
      cases h2 : squadLoopFull squadL ts with
      | error e =>
        have hall : ts.all (fun t => exOk (squadL t)) = false := by rw [← ih, h2]; rfl
        simp only [squadLoopFull, h, h2, List.all_cons]
        rw [hall]
        rfl
      | ok rest =>
        have hall : ts.all (fun t => exOk (squadL t)) = true := by rw [← ih, h2]; rfl
        simp only [squadLoopFull, h, h2, List.all_cons]
        rw [hall]
        rfl

/-- Claim C5 counterexample: in the full-profile script a squad-page
failure is not caught at the iteration boundary: with a successfully
fetched listing page yielding one team, a failing squad fetch
terminates the whole run even though the top-level listing fetch
succeeded. -/
theorem C5_cex :
    runMainFull (Except.ok [mkAnchor "/a-fc/startseite/verein/1" "Team A"])
      (fun _ => Except.error 7) (fun _ _ => Except.ok (0 : Nat)) = Except.error 7 ∧
    (scrapeTeams [mkAnchor "/a-fc/startseite/verein/1" "Team A"]).length = 1 := by
  exact ⟨rfl, rfl⟩

/-- Claim C5 (amended): a listing-page failure terminates either run;
in the basic scraper a failing squad page is caught at the team loop,
logged and skipped, and the run always completes with the remaining
teams' players in order; in the full-profile script the per-player
profile loop catches, logs and skips failing players, but the squad
loop is unguarded, so that run completes exactly when every squad
fetch succeeds. -/
theorem C5_thm :
    (∀ (e : Err) (squad : TeamR → Except Err (List PlayerR)),
      runMain (.error e) squad = .error e) ∧
    (∀ (anchors : List AnchorEl) (squad : TeamR → Except Err (List PlayerR)),
      runMain (.ok anchors) squad =
        .ok (((scrapeTeams anchors).filterMap (fun t => (squad t).toOption)).flatten,
             (scrapeTeams anchors).filter (fun t => !exOk (squad t)))) ∧
    (∀ {α : Type} (e : Err) (sqL : TeamR → Except Err (List PBasic))
        (prof : PBasic → TeamR → Except Err α),
      runMainFull (.error e) sqL prof = .error e) ∧
    (∀ {α : Type} (anchors : List AnchorEl) (sqL : TeamR → Except Err (List PBasic))
        (prof : PBasic → TeamR → Except Err α),
      exOk (runMainFull (.ok anchors) sqL prof) =
        (scrapeTeams anchors).all (fun t => exOk (sqL t))) ∧
    (∀ {α : Type} (prof : PBasic → TeamR → Except Err α) (t : TeamR) (ps : List PBasic),
      playerProfileLoop prof t ps =
        (ps.filterMap (fun pb => (prof pb t).toOption),
         ps.filter (fun pb => !exOk (prof pb t)))) := by
  refine ⟨fun e squad => rfl, ?_, fun e sqL prof => rfl, ?_, ?_⟩
  · intro anchors squad
    rw [runMain, teamLoop_eq]
  · intro α anchors sqL prof
    cases h : squadLoopFull sqL (scrapeTeams anchors) with
    | error e =>
      have hall : (scrapeTeams anchors).all (fun t => exOk (sqL t)) = false := by
        rw [← squadLoopFull_isOk, h]; rfl
      simp only [runMainFull, h]
      rw [hall]; rfl
    | ok pairs =>
      have hall : (scrapeTeams anchors).all (fun t => exOk (sqL t)) = true := by
        rw [← squadLoopFull_isOk, h]; rfl
      simp only [runMainFull, h]
      rw [hall]; rfl
  · intro α prof t ps
    exact playerProfileLoop_eq prof t ps

/-! ## Claim C2: image download retry and size validation -/

theorem saveImage_fetched (p : PlayerR) (bytes : Nat) (fs : List Str) :
    (saveImage p bytes fs).fetched = fs := by
  rw [saveImage]
  split <;> rfl

/-- Claim C2 counterexample: the full-profile script's
`downloadPlayerImage` does not attempt the `-1`-suffixed alternate: on
a non-success first response it returns null having fetched only the
candidate URL. -/
theorem C2_cex :
    downloadPlayerImageFull fetchDown playerX =
      ⟨none, [constructImageUrl "123".data], []⟩ ∧
    replaceOnce ".jpg".data "-1.jpg".data (constructImageUrl "123".data) ∉
      (downloadPlayerImageFull fetchDown playerX).fetched ∧
    fetchDown (constructImageUrl "123".data) = FetchR.resp false 0 := by
  decide

/-- Claim C2 (amended): in the basic scraper, a non-success first
response makes the resolver fetch exactly one alternate URL, formed by
replacing the first `.jpg` by `-1.jpg`, and it returns null with no
file written when that alternate also fails (thrown, non-success, or
under 1000 bytes); in the full-profile script the resolver instead
returns null at once with no alternate attempt; in both scripts a
successful response under 1000 bytes yields null with no file
written. -/
theorem C2_thm (fetch : Str → FetchR) (p : PlayerR) (u : Str) (n : Nat)
    (hu : p.imageUrl = some u) (hne : u.isEmpty = false) :
    (fetch u = .resp false n →
      (downloadPlayerImageMain fetch p).fetched =
        [u, replaceOnce ".jpg".data "-1.jpg".data u] ∧
      (∀ m, fetch (replaceOnce ".jpg".data "-1.jpg".data u) = .resp false m →
        downloadPlayerImageMain fetch p =
          ⟨none, [u, replaceOnce ".jpg".data "-1.jpg".data u], []⟩) ∧
      (fetch (replaceOnce ".jpg".data "-1.jpg".data u) = .fail →
        downloadPlayerImageMain fetch p =
          ⟨none, [u, replaceOnce ".jpg".data "-1.jpg".data u], []⟩) ∧
      (∀ m, m < 1000 → fetch (replaceOnce ".jpg".data "-1.jpg".data u) = .resp true m →
        downloadPlayerImageMain fetch p =
          ⟨none, [u, replaceOnce ".jpg".data "-1.jpg".data u], []⟩) ∧
      downloadPlayerImageFull fetch p = ⟨none, [u], []⟩) ∧
    (fetch u = .resp true n → n < 1000 →
      downloadPlayerImageMain fetch p = ⟨none, [u], []⟩ ∧
      downloadPlayerImageFull fetch p = ⟨none, [u], []⟩) := by
  constructor
  · intro h1
    refine ⟨?_, ?_, ?_, ?_, ?_⟩
    · cases h2 : fetch (replaceOnce ".jpg".data "-1.jpg".data u) with
      | fail => simp [downloadPlayerImageMain, hu, hne, h1, h2]
      | resp ok2 b2 =>
        cases ok2 with
        | false => simp [downloadPlayerImageMain, hu, hne, h1, h2]
        | true => simp [downloadPlayerImageMain, hu, hne, h1, h2, saveImage_fetched]
    · intro m h2
      simp [downloadPlayerImageMain, hu, hne, h1, h2]
    · intro h2
      simp [downloadPlayerImageMain, hu, hne, h1, h2]
    · intro m hm h2
      simp [downloadPlayerImageMain, hu, hne, h1, h2, saveImage, hm]
    · simp [downloadPlayerImageFull, hu, hne, h1]
  · intro h1 hn
    constructor
    · simp [downloadPlayerImageMain, hu, hne, h1, saveImage, hn]
    · simp [downloadPlayerImageFull, hu, hne, h1, hn]

/-- Claim C2 witness: with an all-failing oracle the basic resolver on
`playerX` fetches the candidate and its `-1` alternate and returns
null without writing; with an all-small-success oracle both resolvers
return null without writing. -/
theorem C2_witness :
    downloadPlayerImageMain fetchDown playerX =
      ⟨none, [constructImageUrl "123".data,
              replaceOnce ".jpg".data "-1.jpg".data (constructImageUrl "123".data)], []⟩ ∧
    downloadPlayerImageMain fetchSmall playerX = ⟨none, [constructImageUrl "123".data], []⟩ ∧
    downloadPlayerImageFull fetchSmall playerX = ⟨none, [constructImageUrl "123".data], []⟩ := by
  have h1 := (C2_thm fetchDown playerX (constructImageUrl "123".data) 0 rfl rfl).1 rfl
  have h2 := (C2_thm fetchSmall playerX (constructImageUrl "123".data) 5 rfl rfl).2 rfl
    (by decide)
  exact ⟨h1.2.1 0 rfl, h2.1, h2.2⟩

/-! ## Claim C7: date-of-birth extraction -/

/-- Claim C7 counterexample: a body text containing the fragment but
with an earlier occurrence of the same pattern: extraction returns the
first match, `("01/01/2000", 25)`, not the fragment's values. -/
theorem C7_cex :
    containsSub fragDOB
      "Date of birth/Age: 01/01/2000 (25) Date of birth/Age: 15/08/1998 (27)".data = true ∧
    extractDOBAge
      "Date of birth/Age: 01/01/2000 (25) Date of birth/Age: 15/08/1998 (27)".data =
      (some "01/01/2000".data, some 25) ∧
    extractDOBAge
      "Date of birth/Age: 01/01/2000 (25) Date of birth/Age: 15/08/1998 (27)".data ≠
      (some "15/08/1998".data, some 27) := by
  decide

/-- Claim C7 (amended): extraction returns the first match of the
primary pattern in document order; for every body text containing the
fragment `"Date of birth/Age: 15/08/1998 (27)"` with no match starting
before it, extraction yields dateOfBirth `"15/08/1998"` and age 27
(the fragment is self-delimiting, so the following text is
arbitrary). -/
theorem C7_thm (pre post : Str)
    (hpre : ∀ t, t <:+ pre → t ≠ [] → dob1At (t ++ (fragDOB ++ post)) = none) :
    extractDOBAge (pre ++ (fragDOB ++ post)) = (some "15/08/1998".data, some 27) := by
  have h1 : dob1At (fragDOB ++ post) = some ("15/08/1998".data, "27".data) := rfl
  have h2 : scanFirst dob1At (pre ++ (fragDOB ++ post)) =
      some ("15/08/1998".data, "27".data) := by
    rw [scanFirst_skip dob1At pre (fragDOB ++ post) hpre]
    exact scanFirst_of_head _ _ _ h1
  unfold extractDOBAge
  rw [h2]
  rfl

/-- Claim C7 witness: on the bare fragment extraction yields the
claimed date and age. -/
theorem C7_witness : extractDOBAge fragDOB = (some "15/08/1998".data, some 27) := by
  have h := C7_thm [] [] (by
    intro t ht hne
    obtain ⟨s, hs⟩ := ht
    exact absurd (List.append_eq_nil.mp hs).2 hne)
  simpa using h

/-! ## Claim C8: current-international extraction -/

/-- Claim C8 counterexample: a body text containing
`"Caps/Goals: 30 / 15"` after `"Current international: Sweden"`, where
the goals capture is greedy and grabs the following digit: extraction
yields goals 155, not 15. -/
theorem C8_cex :
    containsSub fragIntl "Current international: Sweden Caps/Goals: 30 / 155".data = true ∧
    extractIntl "Current international: Sweden Caps/Goals: 30 / 155".data =
      (some "Sweden".data, some 30, some 155) ∧
    extractIntl "Current international: Sweden Caps/Goals: 30 / 155".data ≠
      (some "Sweden".data, some 30, some 15) := by
  decide

/-- Claim C8 (amended): for every body text containing the adjacent
fragment `"Current international: Sweden Caps/Goals: 30 / 15"` (the
pattern allows only letters and whitespace between team name and
caps), with no pattern match starting before the fragment and with the
fragment not followed directly by another digit, extraction yields
internationalTeam `"Sweden"`, caps 30 and goals 15 in one match. -/
theorem C8_thm (pre post : Str)
    (hpre : ∀ t, t <:+ pre → t ≠ [] → intlAt (t ++ (fragIntl ++ post)) = none)
    (hpost : ∀ d, post.head? = some d → d.isDigit = false) :
    extractIntl (pre ++ (fragIntl ++ post)) = (some "Sweden".data, some 30, some 15) := by
  have hpw : post.takeWhile Char.isDigit = [] := by
    cases post with
    | nil => rfl
    | cons d ds => simp [List.takeWhile_cons, hpost d rfl]
  have h1 : intlAt (fragIntl ++ post) =
      some ("Sweden".data, "30".data, '1' :: '5' :: post.takeWhile Char.isDigit) := rfl
  rw [hpw] at h1
  have h2 : scanFirst intlAt (pre ++ (fragIntl ++ post)) =
      some ("Sweden".data, "30".data, "15".data) := by
    rw [scanFirst_skip intlAt pre (fragIntl ++ post) hpre]
    exact scanFirst_of_head _ _ _ h1
  unfold extractIntl
  rw [h2]
  rfl

/-- Claim C8 witness: on the bare fragment extraction yields Sweden,
30 caps and 15 goals. -/
theorem C8_witness : extractIntl fragIntl = (some "Sweden".data, some 30, some 15) := by
  have h := C8_thm [] [] (by
    intro t ht hne
    obtain ⟨s, hs⟩ := ht
    exact absurd (List.append_eq_nil.mp hs).2 hne)
    (by intro d hd; exact absurd hd (by simp))
  simpa using h

end FantasySoccer
